import Mathlib

set_option maxRecDepth 8000

/-!
# Verification of the TimelineApp core against its specification

Shallow embedding of the algorithmic core of the repository:

* `src/core/parsing.py`  — date disambiguation (`parse_date`), event-field
  parsing (`parse_eventi_field` and its strict/flexible line parsers),
  personal-data parsing;
* `src/core/compounding.py` — daily compounding simulation
  (`simulate_compound`);
* `src/core/forecast.py` — CAGR extrapolation (`forecast_from_history`) and
  the macro-adjusted CAGR-X variant (`forecast_cagrx_from_yfinance`);
* `src/core/io_csv.py`   — event-table loading (`load_events_csv`), in
  particular the per-person latest-submission deduplication.

Python machine-independent semantics are modelled as follows: `str` becomes
`String`/`List Char`, `int` becomes `Nat`/`Int`, `float` becomes `ℝ` (exact
real arithmetic), `datetime.date`/`datetime.datetime` (midnight) becomes the
`Pydate` structure below, fallible constructs return `Option`, and a raised
exception that escapes a function is an `Except.error`.
-/

namespace Timeline

/-- A Python `datetime.date` / midnight `datetime.datetime` value.
`datetime` accepts `1 ≤ year ≤ 9999` and strictly valid month/day. -/
structure Pydate where
  year : Nat
  month : Nat
  day : Nat
deriving DecidableEq, Repr

/-- Gregorian leap-year test (as Python's `calendar`/`datetime` use). -/
def isLeap (y : Nat) : Bool :=
  y % 4 == 0 && (y % 100 != 0 || y % 400 == 0)

/-- Number of days in month `m` of year `y` (months numbered 1–12). -/
def daysInMonth (y m : Nat) : Nat :=
  if m = 2 then (if isLeap y then 29 else 28)
  else if m = 4 ∨ m = 6 ∨ m = 9 ∨ m = 11 then 30
  else 31

/-- Validity condition enforced by the strict `datetime` constructor. -/
def validDate (y m d : Nat) : Bool :=
  1 ≤ y && y ≤ 9999 && 1 ≤ m && m ≤ 12 && 1 ≤ d && d ≤ daysInMonth y m

/-- `datetime(y, m, d)` wrapped in a `try/except` that turns the
out-of-range exception into `None`, as both call sites in `parsing.py` do. -/
def mkDatetime (y m d : Nat) : Option Pydate :=
  if validDate y m d then some ⟨y, m, d⟩ else none

/-- The ASCII fragment of the whitespace class stripped by Python's
`str.strip()` (the full class also holds Unicode whitespace such as the
no-break space; `pyStripU` below takes the complete table as a
parameter). -/
def pySpace (c : Char) : Bool :=
  c == ' ' || c == '\t' || c == '\n' || c == '\r' || c == '\x0b' || c == '\x0c'

/-- Python `str.strip()` over the ASCII whitespace fragment (drop leading
and trailing whitespace). -/
def pyStrip (cs : List Char) : List Char :=
  ((cs.dropWhile pySpace).reverse.dropWhile pySpace).reverse

/-- Python `re.split` on a character class: split at every separator
character, keeping empty pieces (so `re.split` on `""` yields one empty
token). -/
def splitChars (p : Char → Bool) : List Char → List (List Char)
  | [] => [[]]
  | c :: cs =>
      let r := splitChars p cs
      if p c then [] :: r
      else
        match r with
        | t :: ts => (c :: t) :: ts
        | [] => [[c]]

/-- Python `str.isdigit()` restricted to the ASCII repertoire: non-empty
and all characters `0`–`9`.  The real predicate also accepts Unicode
digit characters such as `²` that `int()` then rejects; `pyIsDigitU`
below takes the complete table as a parameter. -/
def pyIsDigit (cs : List Char) : Bool :=
  !cs.isEmpty && cs.all Char.isDigit

/-- Python `int()` applied to a string of ASCII decimal digits. -/
def strToNat (cs : List Char) : Nat :=
  cs.foldl (fun n c => 10 * n + (c.toNat - 48)) 0

/-- The separator class of the `re.split` on slash-or-hyphen in `parse_date`. -/
def dateSep (ch : Char) : Bool :=
  ch == '/' || ch == '-'

/-- `parsing.parse_date` (src/core/parsing.py, lines 181–211), restricted
to inputs over the ASCII repertoire, on which the function cannot raise.
Splits on `/` or `-` into exactly three all-digit tokens `a, b, c`;
prefers D-M-Y when the last token is the year (`c > 999`), reads Y-M-D when
the first is (`a > 999`), otherwise falls back to D-M-Y provided `b` is a
valid month; any other shape, and any out-of-range calendar date, gives
`none` (the Python code catches the `datetime` exception).  The full
function, whose `int()` conversion sits outside that `try` and can raise
on non-ASCII digit characters, is `parse_date_checked` below;
`parse_date_checked_ascii` proves this definition is its ASCII
restriction. -/
def parse_date (date_str : String) : Option Pydate :=
  if date_str = "" then none
  else
    match splitChars dateSep (pyStrip date_str.data) with
    | [pa, pb, pc] =>
      if pyIsDigit pa && pyIsDigit pb && pyIsDigit pc then
        let a := strToNat pa
        let b := strToNat pb
        let c := strToNat pc
        if 999 < c then mkDatetime c b a
        else if 999 < a then mkDatetime a b c
        else if 1 ≤ b ∧ b ≤ 12 then mkDatetime c b a
        else none
      else none
    | _ => none

/-! ### The Unicode error path of parse_date

`str.strip`, `str.isdigit` and `int()` consult the runtime's Unicode
tables: `strip` removes every Unicode whitespace character (the no-break
space included), `isdigit` accepts every character with a Unicode digit
property, and `int()` accepts only decimal digits — so a token such as
`"²"` (superscript two) passes the `isdigit` shape check and then makes
`int()` raise `ValueError`.  In `parse_date` the conversion
`a, b, c = map(int, parts)` sits before the `try`, so that exception
escapes the function.  The embedding below takes the three character
tables as parameters (they are runtime library data, exactly like the
external timestamp parser of the loader): `isspace` and `isdigit` are the
character classes, and `decval` gives a character's decimal-digit value
when it has one. -/

/-- Python `str.strip()` with an explicit whitespace table. -/
def pyStripU (isspace : Char → Bool) (cs : List Char) : List Char :=
  ((cs.dropWhile isspace).reverse.dropWhile isspace).reverse

/-- Python `str.isdigit()` with an explicit digit table. -/
def pyIsDigitU (isdigit : Char → Bool) (cs : List Char) : Bool :=
  !cs.isEmpty && cs.all isdigit

/-- Python `int()` with an explicit decimal-value table: the numeral's
value when every character is a decimal digit, `none` (a `ValueError`)
otherwise. -/
def pyIntU (decval : Char → Option ℕ) (cs : List Char) : Option ℕ :=
  if cs.isEmpty then none
  else
    cs.foldl
      (fun acc c =>
        match acc, decval c with
        | some n, some d => some (10 * n + d)
        | _, _ => none)
      (some 0)

/-- The ASCII fragment of the decimal-value table: `0`–`9` and nothing
else. -/
def asciiDecval (c : Char) : Option ℕ :=
  if c.isDigit then some (c.toNat - 48) else none

/-- `parsing.parse_date` with its error path (src/core/parsing.py, lines
181–211): the shape check uses `isdigit`, the `int()` conversions sit
OUTSIDE the `try` and surface as `Except.error`, and only the
`datetime` construction is guarded by the `try/except` (folded into
`mkDatetime`). -/
def parse_date_checked (isspace isdigit : Char → Bool)
    (decval : Char → Option ℕ) (date_str : String) :
    Except String (Option Pydate) :=
  if date_str = "" then Except.ok none
  else
    match splitChars dateSep (pyStripU isspace date_str.data) with
    | [pa, pb, pc] =>
      if pyIsDigitU isdigit pa && pyIsDigitU isdigit pb && pyIsDigitU isdigit pc then
        match pyIntU decval pa, pyIntU decval pb, pyIntU decval pc with
        | some a, some b, some c =>
          Except.ok
            (if 999 < c then mkDatetime c b a
             else if 999 < a then mkDatetime a b c
             else if 1 ≤ b ∧ b ≤ 12 then mkDatetime c b a
             else none)
        | _, _, _ =>
          Except.error "ValueError: invalid literal for int() with base 10"
      else Except.ok none
    | _ => Except.ok none

/-- A fragment of the runtime's Unicode whitespace table: the ASCII class
plus the no-break space U+00A0. -/
def uniIsspaceSample : Char → Bool :=
  fun c => pySpace c || c == '\xa0'

/-- A fragment of the runtime's Unicode digit table: ASCII `0`–`9` plus
the superscript two U+00B2, which is a digit without a decimal value. -/
def uniIsdigitSample : Char → Bool :=
  fun c => c.isDigit || c == '²'


/-! ## Event-field parsing (src/core/parsing.py, lines 9–134)

The three schema regexes `EVENTI_REGEX_V1/V2/V3` are embedded as
deterministic matchers over `List Char`.  Each regex is a sequence of
case-insensitive literals, whitespace gaps, lazily-captured value groups
`[^,\n]+?` followed by a comma, a date group, and (v2/v3) a final greedy
`[^\n,]*` group; on such patterns backtracking never changes the outcome
(the value classes exclude the delimiter), so the matchers below compute
exactly the `re.search` result.  `str.lower()` is modelled on ASCII. -/

/-- Python `str.lower()` (ASCII model; non-ASCII letters pass through). -/
def pyLower (cs : List Char) : List Char :=
  cs.map Char.toLower

/-- Python `s.strip(',')`: drop leading and trailing commas. -/
def stripCommas (cs : List Char) : List Char :=
  ((cs.dropWhile (fun c => c == ',')).reverse.dropWhile (fun c => c == ',')).reverse

/-- Python `str.splitlines()` (ASCII line boundaries; no trailing empty
line for a trailing terminator). -/
def splitlinesAux (acc : List Char) : List Char → List (List Char)
  | [] => [acc.reverse]
  | '\r' :: '\n' :: [] => [acc.reverse]
  | '\r' :: '\n' :: rest => acc.reverse :: splitlinesAux [] rest
  | '\r' :: [] => [acc.reverse]
  | '\r' :: rest => acc.reverse :: splitlinesAux [] rest
  | '\n' :: [] => [acc.reverse]
  | '\n' :: rest => acc.reverse :: splitlinesAux [] rest
  | c :: rest => splitlinesAux (c :: acc) rest

def splitlines (cs : List Char) : List (List Char) :=
  match cs with
  | [] => []
  | _ => splitlinesAux [] cs

/-- `parsing._norm_cat`: normalize a category onto
`{bisogno, progetto, desiderio}` through the legacy table, with pass-through
fallback. -/
def norm_cat (cat : List Char) : List Char :=
  let c := pyLower (pyStrip cat)
  if c = "progetto".data ∨ c = "desiderio".data ∨ c = "bisogno".data then c
  else if c = "famiglia".data ∨ c = "obiettivi".data ∨ c = "lavoro".data ∨
      c = "studio".data ∨ c = "carriera".data ∨ c = "istruzione".data then
    "progetto".data
  else if c = "acquisti".data ∨ c = "salute".data ∨ c = "finanze".data then
    "bisogno".data
  else if c = "sogni".data then "desiderio".data
  else c

/-- The dict produced per event line by `_parse_event_line_strict` /
`_parse_event_line_flexible`.  Note: the source produces no `Costo` key. -/
structure EventDict where
  titolo : List Char
  categoria : List Char
  dataEvento : List Char
  familiare : List Char
  acarico : Bool
deriving DecidableEq, Repr

/-- The yes-values of `A Carico?` in `parsing.py`. -/
def yesVals : List (List Char) :=
  ["si".data, "sì".data, "yes".data, "y".data, "true".data, "1".data]

/-- `value in yes_vals` after strip+lower (as both strict v3 and the
flexible parser do). -/
def isYes (cs : List Char) : Bool :=
  decide (pyLower (pyStrip cs) ∈ yesVals)

/-- Case-insensitive literal match (re.IGNORECASE); returns the rest. -/
def matchLitCI : List Char → List Char → Option (List Char)
  | [], cs => some cs
  | _ :: _, [] => none
  | l :: ls, c :: cs => if c.toLower = l.toLower then matchLitCI ls cs else none

/-- Regex gap of one-or-more whitespace characters. -/
def skipWs1 : List Char → Option (List Char)
  | c :: rest => if pySpace c then some (rest.dropWhile pySpace) else none
  | [] => none

/-- The lazily-captured value group of the schemas, i.e. the regex fragment
"whitespace gap, one-or-more chars outside comma and newline captured
lazily, then a comma": succeeds iff the run up to the next comma splits as
whitespace followed by a non-empty newline-free capture; returns the
capture and the rest after the comma. -/
def matchValue1 (t : List Char) : Option (List Char × List Char) :=
  let r := t.takeWhile (fun c => c ≠ ',')
  let rest := t.drop r.length
  match rest with
  | ',' :: rest' =>
    let rv := r.dropWhile pySpace
    if rv.isEmpty then
      match r.getLast? with
      | some c => if c ≠ '\n' then some ([c], rest') else none
      | none => none
    else
      if rv.contains '\n' then none else some (rv, rest')
  | _ => none

/-- The final greedy group of v2/v3, i.e. the regex fragment "whitespace
gap then zero-or-more chars outside newline and comma, captured greedily";
always succeeds. -/
def matchValue0 (t : List Char) : List Char × List Char :=
  let r2 := t.dropWhile pySpace
  let v := r2.takeWhile (fun c => c ≠ ',' ∧ c ≠ '\n')
  (v, r2.drop v.length)

/-- The shared date group of the three schemas: 1–4 digits, slash-or-hyphen,
1–2 digits, slash-or-hyphen, then at least two digits of which greedily at
most four are taken (the surrounding digit groups cannot borrow from a
longer run because the following separator is not a digit). -/
def matchDate (t : List Char) : Option (List Char × List Char) :=
  let r1 := t.takeWhile Char.isDigit
  let s1 := t.drop r1.length
  if 1 ≤ r1.length ∧ r1.length ≤ 4 then
    match s1 with
    | c1 :: s2 =>
      if dateSep c1 then
        let r2 := s2.takeWhile Char.isDigit
        let s3 := s2.drop r2.length
        if 1 ≤ r2.length ∧ r2.length ≤ 2 then
          match s3 with
          | c2 :: s4 =>
            if dateSep c2 then
              let r3 := s4.takeWhile Char.isDigit
              if 2 ≤ r3.length then
                let t3 := r3.take 4
                some (r1 ++ c1 :: r2 ++ c2 :: t3, s4.drop t3.length)
              else none
            else none
          | [] => none
        else none
      else none
    | [] => none
  else none

/-- `re.search`: try the anchored matcher at every start position. -/
def searchAt {α : Type} (m : List Char → Option α) : List Char → Option α
  | [] => m []
  | c :: cs =>
    match m (c :: cs) with
    | some r => some r
    | none => searchAt m cs

/-- The prefix shared verbatim by EVENTI_REGEX_V2 and EVENTI_REGEX_V3:
literal "Titolo", whitespace, "Evento:", captured value, "Categoria:",
captured value, "Data", whitespace, "Evento:", whitespace, date group.
Returns the three captures and the rest of the line. -/
def matchV23Head (t : List Char) :
    Option (List Char × List Char × List Char × List Char) := do
  let t ← matchLitCI "Titolo".data t
  let t := t.dropWhile pySpace
  let t ← matchLitCI "Evento:".data t
  let (g1, t) ← matchValue1 t
  let t := t.dropWhile pySpace
  let t ← matchLitCI "Categoria:".data t
  let (g2, t) ← matchValue1 t
  let t := t.dropWhile pySpace
  let t ← matchLitCI "Data".data t
  let t := t.dropWhile pySpace
  let t ← matchLitCI "Evento:".data t
  let t := t.dropWhile pySpace
  let (g3, t) ← matchDate t
  pure (g1, g2, g3, t)

/-- The trailing "Nome del Familiare A Carico:" literal of
EVENTI_REGEX_V3 followed by its final greedy capture. -/
def matchNomeFamAC (t : List Char) : Option (List Char) := do
  let t ← matchLitCI "Nome".data t
  let t ← skipWs1 t
  let t ← matchLitCI "del".data t
  let t ← skipWs1 t
  let t ← matchLitCI "Familiare".data t
  let t ← skipWs1 t
  let t ← matchLitCI "A".data t
  let t ← skipWs1 t
  let t ← matchLitCI "Carico:".data t
  let (g5, _t) := matchValue0 t
  pure g5

/-- EVENTI_REGEX_V3 anchored at the current position: returns the five
captures (titolo, categoria, data, a-carico, familiare). -/
def matchV3At (t : List Char) :
    Option (List Char × List Char × List Char × List Char × List Char) := do
  let (g1, g2, g3, t) ← matchV23Head t
  let t ← matchLitCI ",".data t
  let t := t.dropWhile pySpace
  let t ← matchLitCI "A".data t
  let t := t.dropWhile pySpace
  let t ← matchLitCI "Carico?:".data t
  let (g4, t) ← matchValue1 t
  let t := t.dropWhile pySpace
  let g5 ← matchNomeFamAC t
  pure (g1, g2, g3, g4, g5)

/-- The optional tail group of EVENTI_REGEX_V2 (comma, whitespace,
"Nome del Familiare:", whitespace, greedy capture). -/
def matchV2Tail (t : List Char) : Option (List Char) := do
  let t ← matchLitCI ",".data t
  let t := t.dropWhile pySpace
  let t ← matchLitCI "Nome".data t
  let t ← skipWs1 t
  let t ← matchLitCI "del".data t
  let t ← skipWs1 t
  let t ← matchLitCI "Familiare:".data t
  let (g4, _t) := matchValue0 t
  pure g4

/-- EVENTI_REGEX_V2 anchored at the current position: returns the captures
(titolo, categoria, data, optional familiare). -/
def matchV2At (t : List Char) :
    Option (List Char × List Char × List Char × Option (List Char)) := do
  let (g1, g2, g3, t) ← matchV23Head t
  pure (g1, g2, g3, matchV2Tail t)

/-- EVENTI_REGEX_V1 anchored at the current position: returns the captures
(titolo, categoria, data). -/
def matchV1At (t : List Char) :
    Option (List Char × List Char × List Char) := do
  let t ← matchLitCI "Titolo:".data t
  let (g1, t) ← matchValue1 t
  let t := t.dropWhile pySpace
  let t ← matchLitCI "Categoria:".data t
  let (g2, t) ← matchValue1 t
  let t := t.dropWhile pySpace
  let t ← matchLitCI "Data:".data t
  let t := t.dropWhile pySpace
  let (g3, _) ← matchDate t
  pure (g1, g2, g3)

/-- `parsing._parse_event_line_strict`: try v3, then v2, then v1. -/
def _parse_event_line_strict (line : List Char) : Option EventDict :=
  match searchAt matchV3At line with
  | some (g1, g2, g3, g4, g5) =>
    let isDep := isYes g4
    some
      { titolo := pyStrip g1
        categoria := norm_cat g2
        dataEvento := pyStrip g3
        familiare := if isDep then pyStrip g5 else []
        acarico := isDep }
  | none =>
    match searchAt matchV2At line with
    | some (g1, g2, g3, g4) =>
      let fam := pyStrip (g4.getD [])
      some
        { titolo := pyStrip g1
          categoria := norm_cat g2
          dataEvento := pyStrip g3
          familiare := fam
          acarico := !fam.isEmpty }
    | none =>
      match searchAt matchV1At line with
      | some (g1, g2, g3) =>
        some
          { titolo := pyStrip g1
            categoria := norm_cat g2
            dataEvento := pyStrip g3
            familiare := []
            acarico := false }
      | none => none

/-- The scan of `re.findall` for key-colon-value pairs in
`_parse_event_line_flexible`: key = maximal non-colon run (non-empty),
then a colon, a whitespace gap, and value = greedy non-comma run.  Fuel is
the input length; every step consumes at least one character. -/
def findPairsF : Nat → List Char → List (List Char × List Char)
  | 0, _ => []
  | _, [] => []
  | fuel + 1, c :: cs' =>
    let cs := c :: cs'
    let k := cs.takeWhile (fun x => x ≠ ':')
    match k, cs.drop k.length with
    | [], _ => findPairsF fuel cs'
    | _ :: _, ':' :: r1 =>
      let r2 := r1.dropWhile pySpace
      let v := r2.takeWhile (fun x => x ≠ ',')
      (k, v) :: findPairsF fuel (r2.drop v.length)
    | _ :: _, _ => []

def findPairs (cs : List Char) : List (List Char × List Char) :=
  findPairsF cs.length cs

/-- `norm_key` of the flexible parser: strip, lower, collapse one pass of
double spaces. -/
def replaceDoubleSpace : List Char → List Char
  | ' ' :: ' ' :: rest => ' ' :: replaceDoubleSpace rest
  | c :: rest => c :: replaceDoubleSpace rest
  | [] => []

def norm_key (k : List Char) : List Char :=
  replaceDoubleSpace (pyLower (pyStrip k))

/-- Python `x or y` on strings (empty string and `None` are falsy). -/
def pyOr (a b : List Char) : List Char :=
  if a = [] then b else a

/-- Dictionary lookup after `d[norm_key(k)] = v.strip()` insertions:
the last binding wins; a missing key yields the empty string (the code
immediately applies `or`). -/
def dictGet (pairs : List (List Char × List Char)) (key : List Char) : List Char :=
  ((pairs.map (fun p => (norm_key p.1, pyStrip p.2))).filter
      (fun p => p.1 = key)).getLast?.elim [] (fun p => p.2)

/-- `parsing._parse_event_line_flexible`. -/
def _parse_event_line_flexible (line : List Char) : Option EventDict :=
  let pairs := findPairs line
  if pairs.isEmpty then none
  else
    let titolo := pyOr (dictGet pairs "titolo evento".data) (dictGet pairs "titolo".data)
    let cat := dictGet pairs "categoria".data
    let dataEv := pyOr (dictGet pairs "data evento".data) (dictGet pairs "data".data)
    let acar := dictGet pairs "a carico?".data
    let fam := pyOr (dictGet pairs "nome del familiare a carico".data)
      (dictGet pairs "nome del familiare".data)
    if titolo = [] ∨ cat = [] ∨ dataEv = [] then none
    else
      some
        { titolo := pyStrip titolo
          categoria := norm_cat cat
          dataEvento := pyStrip dataEv
          familiare := if isYes acar then pyStrip fam else []
          acarico := isYes acar }

/-- `parsing.parse_eventi_field` (src/core/parsing.py, lines 55–75).
NOTE: in the source this function takes the single argument `txt`; it has
no `default_is_dependent` parameter, although both `io_csv.load_events_csv`
and `tests/test_parsing.py` invoke it with the keyword argument
`default_is_dependent=` (which raises `TypeError` at runtime). -/
def parse_eventi_field (txt : String) : List EventDict :=
  if txt = "" then []
  else
    (splitlines txt.data).filterMap (fun raw =>
      let line := stripCommas (pyStrip raw)
      if line.isEmpty then none
      else
        match _parse_event_line_strict line with
        | some d => some d
        | none => _parse_event_line_flexible line)

/-! ## Compounding engine (src/core/compounding.py)

Floats are modelled as exact reals; `x ** (1/365)` becomes `Real.rpow`.
The numpy arrays `values`, `contribs`, `infl_values`, `real_values` are
embedded as recursively defined functions of the day index; the simulated
series is the restriction of those functions to indices below the length
of the daily date range. -/

/-- Day-of-month successor on the proleptic Gregorian calendar, used to
enumerate the daily index `start + timedelta(days=i)`. -/
def nextDay (d : Pydate) : Pydate :=
  if d.day < daysInMonth d.year d.month then ⟨d.year, d.month, d.day + 1⟩
  else if d.month < 12 then ⟨d.year, d.month + 1, 1⟩
  else ⟨d.year + 1, 1, 1⟩

/-- The date `start + timedelta(days=i)`. -/
def dateAt (start : Pydate) : ℕ → Pydate
  | 0 => start
  | i + 1 => nextDay (dateAt start i)

/-- Days in the months of year `y` strictly before month `m`. -/
def daysBeforeMonth (y : Nat) : Nat → Nat
  | 0 => 0
  | m + 1 => if m = 0 then 0 else daysBeforeMonth y m + daysInMonth y m

/-- Proleptic Gregorian day number (`date.toordinal`-style), used only to
compute the day difference `(end - start).days`. -/
def rataDie (d : Pydate) : Nat :=
  365 * (d.year - 1) + (d.year - 1) / 4 - (d.year - 1) / 100 + (d.year - 1) / 400 +
    daysBeforeMonth d.year d.month + d.day

/-- The calendar-safe end date of `_date_range_daily`:
`date(start.year + years, start.month, min(start.day, 28))`. -/
def simEndDate (start : Pydate) (years : Nat) : Pydate :=
  ⟨start.year + years, start.month, min start.day 28⟩

/-- Length of the daily series of `_date_range_daily` (inclusive range). -/
def nDays (start : Pydate) (years : Nat) : Nat :=
  rataDie (simEndDate start years) - rataDie start + 1

/-- `compounding._date_range_daily`: the inclusive daily date range. -/
def _date_range_daily (start : Pydate) (years : Nat) : List Pydate :=
  (List.range (nDays start years)).map (dateAt start)

/-- `compounding.CompoundParams` (floats as reals, `years` as the Python
int). -/
structure CompoundParams where
  initial : ℝ
  monthly : ℝ
  annual_rate : ℝ
  mgmt_fee_annual : ℝ
  inflation_rate : ℝ
  years : ℤ

noncomputable section

/-- Daily gross rate `(1 + annual_rate) ** (1/365) - 1`. -/
def dailyGross (p : CompoundParams) : ℝ :=
  (1 + p.annual_rate) ^ ((1 : ℝ) / 365) - 1

/-- Daily management-fee drag `mgmt_fee_annual / 365`. -/
def dailyMgmt (p : CompoundParams) : ℝ :=
  p.mgmt_fee_annual / 365

/-- Daily net rate `daily_gross - daily_mgmt`. -/
def dailyNet (p : CompoundParams) : ℝ :=
  dailyGross p - dailyMgmt p

/-- Daily inflation rate `(1 + inflation_rate) ** (1/365) - 1`. -/
def dailyInfl (p : CompoundParams) : ℝ :=
  (1 + p.inflation_rate) ^ ((1 : ℝ) / 365) - 1

/-- The contribution injected on day `i`:
`np.where(index.day == 1, monthly, 0)` when `monthly > 0`, zero otherwise. -/
def contribIncrement (start : Pydate) (p : CompoundParams) (i : ℕ) : ℝ :=
  if 0 < p.monthly then
    (if (dateAt start i).day = 1 then p.monthly else 0)
  else 0

/-- The `values` array: day-0 seed `initial + contrib_increment[0]`, then
`values[i] = values[i-1] * (1 + daily_net) + contrib_increment[i]`. -/
def simValue (start : Pydate) (p : CompoundParams) : ℕ → ℝ
  | 0 => p.initial + contribIncrement start p 0
  | i + 1 => simValue start p i * (1 + dailyNet p) + contribIncrement start p (i + 1)

/-- The `contribs` array (running sum of initial capital and injections). -/
def simContrib (start : Pydate) (p : CompoundParams) : ℕ → ℝ
  | 0 => p.initial + contribIncrement start p 0
  | i + 1 => simContrib start p i + contribIncrement start p (i + 1)

/-- The `infl_values` array: same schedule compounded at the inflation
rate only. -/
def simInfl (start : Pydate) (p : CompoundParams) : ℕ → ℝ
  | 0 => p.initial + contribIncrement start p 0
  | i + 1 => simInfl start p i * (1 + dailyInfl p) + contribIncrement start p (i + 1)

/-- `infl_factor = infl_values / infl_values[0]`. -/
def inflFactor (start : Pydate) (p : CompoundParams) (i : ℕ) : ℝ :=
  simInfl start p i / simInfl start p 0

/-- `np.where(infl_factor <= 0, 1.0, infl_factor)`. -/
def inflFactorGuard (start : Pydate) (p : CompoundParams) (i : ℕ) : ℝ :=
  if inflFactor start p i ≤ 0 then 1 else inflFactor start p i

/-- The `real_values` array: nominal value deflated by the guarded
inflation factor. -/
def simRealValue (start : Pydate) (p : CompoundParams) (i : ℕ) : ℝ :=
  simValue start p i / inflFactorGuard start p i

/-- The day-indexed result frame of `simulate_compound` (functions of the
day index, meaningful for indices below `nDays`). -/
structure SimSeries where
  nDays : ℕ
  value : ℕ → ℝ
  contrib : ℕ → ℝ
  net_rate : ℕ → ℝ
  inflation_value : ℕ → ℝ
  real_value : ℕ → ℝ

/-- The frame built by the body of `simulate_compound` once the parameter
guard has passed. -/
def simulate_core (start : Pydate) (p : CompoundParams) : SimSeries where
  nDays := Timeline.nDays start p.years.toNat
  value := simValue start p
  contrib := simContrib start p
  net_rate := fun _ => dailyNet p
  inflation_value := simInfl start p
  real_value := simRealValue start p

/-- `compounding.simulate_compound` (src/core/compounding.py, lines
30–94): raises `ValueError("years must be > 0")` when `p.years <= 0`,
otherwise returns the simulated frame. -/
def simulate_compound (start : Pydate) (p : CompoundParams) :
    Except String SimSeries :=
  if p.years ≤ 0 then Except.error "years must be > 0"
  else Except.ok (simulate_core start p)

end

/-! ## Forecast engine (src/core/forecast.py)

Price series are embedded as date-price association lists; the external
`yfinance` downloads of the macro proxies (`^TNX`, `^VIX`, `DX-Y.NYB`)
are passed in as already-fetched value lists, and `pd.Series.std()` is the
sample (ddof = 1) standard deviation. -/

/-- Calendar order on `Pydate` (pandas timestamp comparison). -/
def dateLeB (a b : Pydate) : Bool :=
  decide (a.year < b.year ∨ (a.year = b.year ∧
    (a.month < b.month ∨ (a.month = b.month ∧ a.day ≤ b.day))))

/-- Insert a dated price into a date-sorted list (used to model
`Series.sort_index()`). -/
def insertByDate (x : Pydate × ℝ) : List (Pydate × ℝ) → List (Pydate × ℝ)
  | [] => [x]
  | y :: ys => if dateLeB x.1 y.1 then x :: y :: ys else y :: insertByDate x ys

/-- `Series.sort_index()`: sort the series by date. -/
def sortIndex : List (Pydate × ℝ) → List (Pydate × ℝ)
  | [] => []
  | x :: xs => insertByDate x (sortIndex xs)

/-- `end - pd.DateOffset(years=n)`: shift the year down, clamping the day
to the target month's length (Feb 29 → Feb 28). -/
def subYears (d : Pydate) (n : ℕ) : Pydate :=
  ⟨d.year - n, d.month, min d.day (daysInMonth (d.year - n) d.month)⟩

noncomputable section

/-- `forecast._estimate_cagr`: trailing-window CAGR with full-series
fallback below 30 window points (minimum span 0.25 years), returning 0 on
degenerate input. -/
def _estimate_cagr (series : List (Pydate × ℝ)) (years_window : ℕ) : ℝ :=
  match series with
  | [] => 0
  | s₀ :: rest =>
    let ser := s₀ :: rest
    let endD := (ser.getLastD s₀).1
    let startCut := subYears endD years_window
    let w₀ := ser.filter (fun q => dateLeB startCut q.1)
    let wy : List (Pydate × ℝ) × ℝ :=
      if w₀.length < 30 then
        (ser, max (((rataDie (ser.getLastD s₀).1 : ℝ) - (rataDie s₀.1 : ℝ)) / 365.25) 0.25)
      else (w₀, years_window)
    let w := wy.1
    let years := wy.2
    if years ≤ 0 ∨ w.length < 2 then 0
    else
      match w with
      | [] => 0
      | w₀ :: wrest =>
        (((w₀ :: wrest).getLastD w₀).2 / w₀.2) ^ (1 / years) - 1

/-- `forecast.forecast_from_history` (src/core/forecast.py, lines 54–69):
baseline deterministic CAGR projection. -/
def forecast_from_history (hist : List (Pydate × ℝ)) (future_index : List Pydate)
    (lookback_years : ℕ) : List (Pydate × ℝ) :=
  if hist.isEmpty ∨ future_index.isEmpty then []
  else
    match sortIndex hist with
    | [] => []
    | h₀ :: hrest =>
      let g := _estimate_cagr (h₀ :: hrest) lookback_years
      let lastPair := (h₀ :: hrest).getLastD h₀
      let lastPrice := lastPair.2
      let lastDate := lastPair.1
      let daily := (1 + g) ^ ((1 : ℝ) / 365.25) - 1
      future_index.map (fun d =>
        (d, lastPrice * (1 + daily) ^ (max 0 ((rataDie d : ℤ) - (rataDie lastDate : ℤ))).toNat))

/-- `forecast._tnx_to_decimal`: Yahoo quotes the 10-year rate in points;
values above 1 are scaled down by 1000. -/
def _tnx_to_decimal (y : ℝ) : ℝ :=
  if 1 < y then y / 1000 else y

/-- `forecast._zscore_last`: z-score of the last value against the whole
series (sample standard deviation, epsilon-guarded), 0 below 30 points. -/
def _zscore_last (s : List ℝ) : ℝ :=
  if s.length < 30 then 0
  else
    let m := s.sum / s.length
    let sd := Real.sqrt ((s.map (fun x => (x - m) ^ 2)).sum / ((s.length : ℝ) - 1)) + 1e-9
    (s.getLastD 0 - m) / sd

/-- `np.clip(x, lo, hi)`. -/
def npClip (x lo hi : ℝ) : ℝ :=
  min (max x lo) hi

/-- The clamped macro adjustment of CAGR-X (src/core/forecast.py, lines
127–133): fixed negative weights per unit z-score, clipped to
`[-max_downshift, max_upshift]`. -/
def cagrx_adjustment (z_tnx z_vix z_dxy max_upshift max_downshift : ℝ) : ℝ :=
  npClip ((-0.004) * z_tnx + (-0.003) * z_vix + (-0.0015) * z_dxy)
    (-max_downshift) max_upshift

/-- The final adjusted annual rate of CAGR-X (lines 135–137): baseline plus
adjustment, clipped to the absolute guard band `[-0.05, 0.15]`. -/
def cagrx_rate (base_cagr adj : ℝ) : ℝ :=
  npClip (base_cagr + adj) (-0.05) 0.15

/-- `forecast.forecast_cagrx_from_yfinance` (src/core/forecast.py, lines
92–147).  The three macro series stand for the `_fetch_adj_close` results
over the `macro_years` window (the fetch itself is external I/O); the
`^TNX` series is passed through `_tnx_to_decimal` exactly as
`.apply(_tnx_to_decimal)` does. -/
def forecast_cagrx_from_yfinance (hist : List (Pydate × ℝ))
    (future_index : List Pydate) (lookback_years _macro_years : ℕ)
    (tnx vix dxy : List ℝ) (max_upshift max_downshift : ℝ) :
    List (Pydate × ℝ) :=
  if hist.isEmpty ∨ future_index.isEmpty then []
  else
    match sortIndex hist with
    | [] => []
    | h₀ :: hrest =>
      let base_cagr := _estimate_cagr (h₀ :: hrest) lookback_years
      let z_tnx := _zscore_last (tnx.map _tnx_to_decimal)
      let z_vix := _zscore_last vix
      let z_dxy := _zscore_last dxy
      let adj := cagrx_adjustment z_tnx z_vix z_dxy max_upshift max_downshift
      let g := cagrx_rate base_cagr adj
      let lastPair := (h₀ :: hrest).getLastD h₀
      let lastPrice := lastPair.2
      let lastDate := lastPair.1
      let daily := (1 + g) ^ ((1 : ℝ) / 365.25) - 1
      future_index.map (fun d =>
        (d, lastPrice * (1 + daily) ^ (max 0 ((rataDie d : ℤ) - (rataDie lastDate : ℤ))).toNat))

end

/-! ## Personal-data parsing (src/core/parsing.py, lines 137–174) -/

/-- The final greedy one-or-more value group of PERSONA_REGEX/SESSO_REGEX,
i.e. the regex fragment "whitespace gap then one-or-more chars outside
comma and newline, captured greedily, with nothing required after". -/
def matchFinalValue1 (t : List Char) : Option (List Char) :=
  let rv := (t.dropWhile pySpace).takeWhile (fun c => ¬(c = ',' ∨ c = '\n'))
  if rv.isEmpty then
    match (t.takeWhile pySpace).getLast? with
    | some c => if c ≠ '\n' then some [c] else none
    | none => none
  else some rv

/-- PERSONA_REGEX anchored: literal "Nome:", captured value up to a comma,
whitespace, "Cognome:", final captured value. -/
def matchPersonaAt (t : List Char) : Option (List Char × List Char) := do
  let t ← matchLitCI "Nome:".data t
  let (g1, t) ← matchValue1 t
  let t := t.dropWhile pySpace
  let t ← matchLitCI "Cognome:".data t
  let g2 ← matchFinalValue1 t
  pure (g1, g2)

/-- SESSO_REGEX anchored. -/
def matchSessoAt (t : List Char) : Option (List Char) := do
  let t ← matchLitCI "Sesso:".data t
  matchFinalValue1 t

/-- NASCITA_REGEX anchored: "Data Di Nascita:" with one-or-more whitespace
between words, then the shared date group. -/
def matchNascitaAt (t : List Char) : Option (List Char) := do
  let t ← matchLitCI "Data".data t
  let t ← skipWs1 t
  let t ← matchLitCI "Di".data t
  let t ← skipWs1 t
  let t ← matchLitCI "Nascita:".data t
  let t := t.dropWhile pySpace
  let (g, _t) ← matchDate t
  pure g

/-- `parsing.parse_personal_data`: (nome, cognome), empty on no match. -/
def parse_personal_data (txt : List Char) : List Char × List Char :=
  if txt.isEmpty then ([], [])
  else
    match searchAt matchPersonaAt txt with
    | none => ([], [])
    | some (g1, g2) => (pyStrip g1, pyStrip g2)

/-- The result dict of `parse_personal_details`. -/
structure PersonalDetails where
  nome : List Char
  cognome : List Char
  sesso : List Char
  nascitaStr : List Char
deriving DecidableEq, Repr

/-- `parsing.parse_personal_details`: name pair plus independently
extracted sex and birth-date string. -/
def parse_personal_details (txt : List Char) : PersonalDetails :=
  let nc := parse_personal_data txt
  let sesso := match searchAt matchSessoAt txt with
    | some g => pyStrip g
    | none => []
  let nascita := match searchAt matchNascitaAt txt with
    | some g => pyStrip g
    | none => []
  ⟨nc.1, nc.2, sesso, nascita⟩

/-! ## Event-table loading (src/core/io_csv.py)

A CSV row (after `_map_columns` column resolution, which is pure
column-name normalization) is modelled as the cell contents of the mapped
columns; an absent optional column is `none`.  `pd.to_datetime` is an
external library parser, passed in as `toDT : Bool → String → Option ℕ`
(the Bool is `dayfirst`); a parsed timestamp is modelled as a natural
number strictly above `datetimeMin = 0`, mirroring `datetime.min` being
strictly below every pandas timestamp. -/

/-- `models.PersonInfo`. -/
structure PersonInfo where
  nome : List Char
  cognome : List Char
  sesso : List Char
  nascita : Option Pydate
deriving DecidableEq, Repr

/-- `models.Event`. -/
structure Event where
  nome : List Char
  titolo : List Char
  categoria : List Char
  data_str : List Char
  dt : Pydate
  familiare : List Char
  is_dependent : Bool
  costo : Option (List Char)
deriving DecidableEq, Repr

/-- A row of the event table, as the loader sees it after column
resolution. -/
structure Row where
  submission : String
  eventi : List String
  eventiDep : List String
  datiPersonali : Option String
  nome : Option String
  cognome : Option String
deriving DecidableEq, Repr

/-- Modelled from the spec: `io_csv.load_events_csv` calls
`parse_eventi_field(text, default_is_dependent=default_dep)`, but the
`parse_eventi_field` in `src/core/parsing.py` accepts no such parameter
(the call as written raises `TypeError`).  Following spec §4.2, the flag
forces `is_dependent = true` on every event parsed from the cell and
leaves the dependent name as parsed (empty when none was specified); the
v3 cost retention the spec also mentions has no counterpart in the source
parser and is therefore absent here too. -/
def parse_eventi_field_spec (txt : String) (default_is_dependent : Bool) :
    List EventDict :=
  (parse_eventi_field txt).map
    (fun d => { d with acarico := d.acarico || default_is_dependent })

/-- `datetime.min`, the sentinel for unparseable submission timestamps. -/
def datetimeMin : ℕ := 0

/-- `io_csv.load_events_csv._parse_submission`: try day-first, then
month-first, then fall back to `datetime.min`; blank input is also
`datetime.min`. -/
def _parse_submission (toDT : Bool → String → Option ℕ) (value : String) : ℕ :=
  let raw := String.mk (pyStrip value.data)
  if raw = "" then datetimeMin
  else
    match toDT true raw with
    | some t => t
    | none =>
      match toDT false raw with
      | some t => t
      | none => datetimeMin

/-- `f-string` full name `f"{nome} {cognome}".strip()`. -/
def fullNameOf (nome cognome : List Char) : List Char :=
  pyStrip (nome ++ ' ' :: cognome)

/-- `io_csv.load_events_csv._extract_person`: derive the full name and the
`PersonInfo` from the personal-data cell, falling back to the name columns. -/
def _extract_person (row : Row) : List Char × Option PersonInfo :=
  let d1 : List Char × Option PersonInfo :=
    match row.datiPersonali with
    | some cell =>
      let details := parse_personal_details cell.data
      let nome := pyStrip details.nome
      let cognome := pyStrip details.cognome
      let full := fullNameOf nome cognome
      let sesso := pyStrip details.sesso
      let nascitaStr := pyStrip details.nascitaStr
      let nascita :=
        if nascitaStr.isEmpty then none else parse_date (String.mk nascitaStr)
      if full.isEmpty then ([], none)
      else (full, some ⟨pyOr nome full, cognome, sesso, nascita⟩)
    | none => ([], none)
  if d1.1.isEmpty then
    match row.nome with
    | some ncell =>
      let nome := pyStrip ncell.data
      let cognome := match row.cognome with | some c => pyStrip c.data | none => []
      let full := match row.cognome with
        | some _ => fullNameOf nome cognome
        | none => nome
      if full.isEmpty then (full, none)
      else
        (full, some ⟨pyOr nome full,
          (match row.cognome with | some _ => cognome | none => []), [], none⟩)
    | none => d1
  else d1

/-- One entry of the `selected_forms` dict. -/
structure SelEntry where
  row : Row
  submission : ℕ
  info : Option PersonInfo
deriving DecidableEq, Repr

instance : Inhabited SelEntry :=
  ⟨⟨⟨"", [], [], none, none, none⟩, 0, none⟩⟩

/-- Dict lookup (first binding; keys are unique by construction). -/
def selLookup : List (List Char × SelEntry) → List Char → Option SelEntry
  | [], _ => none
  | (k, v) :: rest, n => if k = n then some v else selLookup rest n

/-- Python-dict assignment: replace the binding in place, or append. -/
def selInsert : List (List Char × SelEntry) → List Char → SelEntry →
    List (List Char × SelEntry)
  | [], n, e => [(n, e)]
  | (k, v) :: rest, n, e =>
    if k = n then (k, e) :: rest else (k, v) :: selInsert rest n e

/-- One iteration of the `selected_forms` loop (io_csv.py lines 110–121):
skip rows without a name; otherwise keep the row when it is the first or
when its submission timestamp is at least the stored one. -/
def selStep (toDT : Bool → String → Option ℕ)
    (sel : List (List Char × SelEntry)) (row : Row) :
    List (List Char × SelEntry) :=
  let fi := _extract_person row
  if fi.1.isEmpty then sel
  else
    let subm := _parse_submission toDT row.submission
    match selLookup sel fi.1 with
    | none => selInsert sel fi.1 ⟨row, subm, fi.2⟩
    | some ex =>
      if ex.submission ≤ subm then selInsert sel fi.1 ⟨row, subm, fi.2⟩ else sel

/-- The `selected_forms` dict after the whole loop. -/
def selectForms (toDT : Bool → String → Option ℕ) (rows : List Row) :
    List (List Char × SelEntry) :=
  rows.foldl (selStep toDT) []

/-- The `(default_dep, column)` pairs of the event-assembly loop: the
personal-events columns with flag `false`, then the dependent-events
columns with flag `true`. -/
def eventColumns (row : Row) : List (Bool × String) :=
  row.eventi.map (fun c => (false, c)) ++ row.eventiDep.map (fun c => (true, c))

/-- The events assembled from one winning row (io_csv.py lines 130–157):
skip blank cells, parse each cell, drop events whose date does not parse,
re-apply the dependent default, blank the family member for non-dependent
events; `ev.get("Costo")` is always `None` because the parser emits no
such key. -/
def eventsFromRow (name : List Char) (row : Row) : List Event :=
  (eventColumns row).flatMap (fun dc =>
    let text := pyStrip dc.2.data
    if text.isEmpty then []
    else
      (parse_eventi_field_spec (String.mk text) dc.1).filterMap (fun ev =>
        match parse_date (String.mk ev.dataEvento) with
        | none => none
        | some dt =>
          let fam := ev.familiare
          let isDep := ev.acarico || dc.1
          some ⟨name, ev.titolo, ev.categoria, ev.dataEvento, dt,
            if isDep then fam else [], isDep, none⟩))

/-- Stable insertion into a date-sorted event list (equal dates keep
insertion order, as Python's stable `sorted` does). -/
def insertEvent (x : Event) : List Event → List Event
  | [] => [x]
  | y :: ys => if dateLeB y.dt x.dt then y :: insertEvent x ys else x :: y :: ys

/-- `sorted(events, key=lambda e: e.dt)`. -/
def sortByDt (evs : List Event) : List Event :=
  evs.foldl (fun acc e => insertEvent e acc) []

/-- `io_csv.load_events_csv` (src/core/io_csv.py, lines 57–159), from the
resolved rows: deduplicate per person by latest submission, assemble the
events of each winning row, sort by event date, and pair with the person
registry (defaulting missing info to a bare `PersonInfo`). -/
def load_events_csv (toDT : Bool → String → Option ℕ) (rows : List Row) :
    List Event × List (List Char × PersonInfo) :=
  let sel := selectForms toDT rows
  (sortByDt (sel.flatMap (fun ne => eventsFromRow ne.1 ne.2.row)),
   sel.map (fun ne => (ne.1, ne.2.info.getD ⟨ne.1, [], [], none⟩)))

/-- The keys of the `selected_forms` dict. -/
def selKeys (sel : List (List Char × SelEntry)) : List (List Char) :=
  sel.map Prod.fst

/-- The invariant of the `selected_forms` loop: keys are unique and
non-empty, every stored entry is the latest-submitted row (so far) of its
full name, and every processed row with a non-empty name has an entry. -/
def selSpec (toDT : Bool → String → Option ℕ) (processed : List Row)
    (sel : List (List Char × SelEntry)) : Prop :=
  (selKeys sel).Nodup ∧
  (∀ n e, selLookup sel n = some e →
    n ≠ [] ∧ e.row ∈ processed ∧ (_extract_person e.row).1 = n ∧
    e.submission = _parse_submission toDT e.row.submission ∧
    e.info = (_extract_person e.row).2 ∧
    (∀ r ∈ processed, (_extract_person r).1 = n →
      _parse_submission toDT r.submission ≤ e.submission)) ∧
  (∀ r ∈ processed, (_extract_person r).1 ≠ [] →
    (selLookup sel ((_extract_person r).1)).isSome = true)

/-- Sample timestamp parser for concrete loader runs: day-first and
month-first agree on the two ISO stamps involved. -/
def sampleToDT : Bool → String → Option ℕ :=
  fun _ s =>
    if s = "2023-01-01" then some 100
    else if s = "2024-05-01" then some 200
    else none

/-- A stale submission row for Mario Rossi. -/
def sampleRow1 : Row :=
  ⟨"2023-01-01",
   ["Titolo Evento: Laurea, Categoria: Progetto, Data Evento: 11-09-1999"],
   [], some "Nome: Mario, Cognome: Rossi", none, none⟩

/-- A fresher submission row for the same Mario Rossi. -/
def sampleRow2 : Row :=
  ⟨"2024-05-01",
   ["Titolo Evento: Promozione, Categoria: lavoro, Data Evento: 01/06/2024"],
   [], some "Nome: Mario, Cognome: Rossi", none, none⟩

/-- The person info extracted from the sample rows. -/
def sampleInfo : PersonInfo :=
  ⟨"Mario".data, "Rossi".data, [], none⟩

/-- The winning `selected_forms` entry for the sample table. -/
def sampleEntry : SelEntry :=
  ⟨sampleRow2, 200, some sampleInfo⟩

/-- A one-row table whose single v3-schema event line carries a `Costo`
field after the dependent name. -/
def sampleCostoRow : Row :=
  ⟨"2024-05-01",
   ["Titolo Evento: Operazione, Categoria: salute, Data Evento: 01-04-2010, A Carico?: Si, Nome del Familiare A Carico: Anna, Costo: 2000"],
   [], some "Nome: Mario, Cognome: Rossi", none, none⟩


/-! ## Theorems -/

/-- A fold over at most `len` digit characters stays below `(n+1)·10^len`. -/
theorem foldl_digits_lt (cs : List Char) (n : Nat)
    (h : ∀ c ∈ cs, c.isDigit = true) :
    cs.foldl (fun n c => 10 * n + (c.toNat - 48)) n < (n + 1) * 10 ^ cs.length := by
  induction cs generalizing n with
  | nil => simp
  | cons c cs ih =>
    have hc : c.isDigit = true := h c (List.mem_cons_self c cs)
    have hd : c.toNat - 48 ≤ 9 := by
      simp [Char.isDigit] at hc
      obtain ⟨h1, h2⟩ := hc
      have h2' : c.val.toNat ≤ 57 := h2
      simp [Char.toNat]
      omega
    have := ih (10 * n + (c.toNat - 48)) (fun c hmem => h c (List.mem_cons_of_mem _ hmem))
    calc (c :: cs).foldl (fun n c => 10 * n + (c.toNat - 48)) n
        = cs.foldl (fun n c => 10 * n + (c.toNat - 48)) (10 * n + (c.toNat - 48)) := rfl
      _ < (10 * n + (c.toNat - 48) + 1) * 10 ^ cs.length := this
      _ ≤ ((n + 1) * 10) * 10 ^ cs.length := by
          have : 10 * n + (c.toNat - 48) + 1 ≤ (n + 1) * 10 := by omega
          exact Nat.mul_le_mul_right _ this
      _ = (n + 1) * 10 ^ (c :: cs).length := by
          simp [List.length_cons, pow_succ]
          ring

/-- A token of at most three digit characters has value at most 999. -/
theorem strToNat_le_of_short (cs : List Char) (hdig : pyIsDigit cs = true)
    (hlen : cs.length ≤ 3) : strToNat cs ≤ 999 := by
  have hall : ∀ c ∈ cs, c.isDigit = true := by
    unfold pyIsDigit at hdig
    simp only [Bool.and_eq_true, List.all_eq_true] at hdig
    exact fun c hc => hdig.2 c hc
  have h := foldl_digits_lt cs 0 hall
  have hpow : 10 ^ cs.length ≤ 10 ^ 3 :=
    Nat.pow_le_pow_right (by norm_num) hlen
  have : strToNat cs < 10 ^ cs.length := by simpa [strToNat] using h
  omega

theorem validDate_iff (y m d : Nat) :
    validDate y m d = true ↔
      1 ≤ y ∧ y ≤ 9999 ∧ 1 ≤ m ∧ m ≤ 12 ∧ 1 ≤ d ∧ d ≤ daysInMonth y m := by
  unfold validDate
  simp only [Bool.and_eq_true, decide_eq_true_eq]
  tauto

/-- Folding the ASCII decimal-value table over digit characters computes
the numeral's value. -/
theorem pyIntU_foldl_ascii (cs : List Char) (h : ∀ c ∈ cs, c.isDigit = true) :
    ∀ n : ℕ,
      cs.foldl
        (fun acc c =>
          match acc, asciiDecval c with
          | some n, some d => some (10 * n + d)
          | _, _ => none)
        (some n) =
      some (cs.foldl (fun n c => 10 * n + (c.toNat - 48)) n) := by
  induction cs with
  | nil => intro n; rfl
  | cons c cs ih =>
    intro n
    have hc : c.isDigit = true := h c (List.mem_cons_self c cs)
    have hrest := ih (fun d hd => h d (List.mem_cons_of_mem _ hd))
      (10 * n + (c.toNat - 48))
    have hdec : asciiDecval c = some (c.toNat - 48) := by
      simp [asciiDecval, hc]
    simp only [List.foldl_cons]
    rw [hdec]
    exact hrest

/-- `pyIntU` over the ASCII table agrees with `strToNat` on tokens that
pass the ASCII digit test (on that repertoire `int()` cannot fail). -/
theorem pyIntU_asciiDecval (cs : List Char) (h : pyIsDigit cs = true) :
    pyIntU asciiDecval cs = some (strToNat cs) := by
  unfold pyIsDigit at h
  simp only [Bool.and_eq_true, Bool.not_eq_true', List.all_eq_true] at h
  obtain ⟨hne, hall⟩ := h
  unfold pyIntU
  rw [if_neg (by simp [hne])]
  simpa [strToNat] using pyIntU_foldl_ascii cs hall 0

/-- `parse_date` above is exactly the restriction of `parse_date_checked`
to the ASCII character tables: over that repertoire the `int()`
conversions cannot fail and the function cannot raise. -/
theorem parse_date_checked_ascii (s : String) :
    parse_date_checked pySpace Char.isDigit asciiDecval s =
      Except.ok (parse_date s) := by
  have hdU : pyIsDigitU Char.isDigit = pyIsDigit := rfl
  have hstripU : pyStripU pySpace = pyStrip := rfl
  unfold parse_date_checked parse_date
  by_cases hempty : s = ""
  · simp [hempty]
  · simp only [if_neg hempty]
    rw [hdU, hstripU]
    cases hsplit : splitChars dateSep (pyStrip s.data) with
    | nil => rfl
    | cons pa rest =>
      cases rest with
      | nil => rfl
      | cons pb rest2 =>
        cases rest2 with
        | nil => rfl
        | cons pc rest3 =>
          cases rest3 with
          | cons _ _ => rfl
          | nil =>
            by_cases hd : (pyIsDigit pa && pyIsDigit pb && pyIsDigit pc) = true
            · have hd' := hd
              rw [Bool.and_eq_true, Bool.and_eq_true] at hd'
              simp [hd, pyIntU_asciiDecval pa hd'.1.1,
                pyIntU_asciiDecval pb hd'.1.2, pyIntU_asciiDecval pc hd'.2]
            · simp [hd]

/-- C8 (the code at the failing inputs): `parse_date`'s digit shape check
uses `str.isdigit`, which also accepts Unicode digit characters such as
`²` (superscript two) that `int()` rejects, and the conversion
`a, b, c = map(int, parts)` sits before the `try`; so for every runtime
character table in which `²` is a non-decimal digit and the no-break
space is whitespace (as in Unicode), `parse_date("²/1/2000")` raises an
uncaught `ValueError` instead of returning `none`, and
`"\xa01/2/2020"` is stripped and parsed to a date; the out-of-range
`"32/13/2020"` still yields `none` through the guarded `datetime`
constructor. -/
theorem parse_date_uncaught_valueerror
    (isspace isdigit : Char → Bool) (decval : Char → Option ℕ)
    (hsp : ∀ c : Char, c.toNat < 128 → isspace c = pySpace c)
    (hdg : ∀ c : Char, c.toNat < 128 → isdigit c = Char.isDigit c)
    (hdv : ∀ c : Char, c.toNat < 128 → decval c = asciiDecval c)
    (h2sp : isspace '²' = false) (h2dg : isdigit '²' = true)
    (h2dv : decval '²' = none) (hnb : isspace '\xa0' = true) :
    parse_date_checked isspace isdigit decval "²/1/2000" =
        Except.error "ValueError: invalid literal for int() with base 10" ∧
      parse_date_checked isspace isdigit decval "\xa01/2/2020" =
        Except.ok (some ⟨2020, 2, 1⟩) ∧
      parse_date_checked isspace isdigit decval "32/13/2020" =
        Except.ok none := by
  have hs0 : isspace '0' = false := by rw [hsp '0' (by decide)]; decide
  have hs1 : isspace '1' = false := by rw [hsp '1' (by decide)]; decide
  have hs3 : isspace '3' = false := by rw [hsp '3' (by decide)]; decide
  have hd0 : isdigit '0' = true := by rw [hdg '0' (by decide)]; decide
  have hd1 : isdigit '1' = true := by rw [hdg '1' (by decide)]; decide
  have hd2 : isdigit '2' = true := by rw [hdg '2' (by decide)]; decide
  have hd3 : isdigit '3' = true := by rw [hdg '3' (by decide)]; decide
  have hv0 : decval '0' = some 0 := by rw [hdv '0' (by decide)]; decide
  have hv1 : decval '1' = some 1 := by rw [hdv '1' (by decide)]; decide
  have hv2 : decval '2' = some 2 := by rw [hdv '2' (by decide)]; decide
  have hv3 : decval '3' = some 3 := by rw [hdv '3' (by decide)]; decide
  refine ⟨?_, ?_, ?_⟩
  · unfold parse_date_checked
    rw [if_neg (by decide : ¬("²/1/2000" = ""))]
    rw [show "²/1/2000".data = ['²', '/', '1', '/', '2', '0', '0', '0'] from rfl]
    have hstrip : pyStripU isspace ['²', '/', '1', '/', '2', '0', '0', '0'] =
        ['²', '/', '1', '/', '2', '0', '0', '0'] := by
      simp [pyStripU, List.dropWhile, h2sp, hs0]
    rw [hstrip]
    rw [show splitChars dateSep ['²', '/', '1', '/', '2', '0', '0', '0'] =
        [['²'], ['1'], ['2', '0', '0', '0']] from by decide]
    simp [pyIsDigitU, pyIntU, List.foldl, h2dg, hd1, hd2, hd0, h2dv, hv1, hv2, hv0]
  · unfold parse_date_checked
    rw [if_neg (by decide : ¬("\xa01/2/2020" = ""))]
    rw [show "\xa01/2/2020".data =
        ['\xa0', '1', '/', '2', '/', '2', '0', '2', '0'] from rfl]
    have hstrip : pyStripU isspace ['\xa0', '1', '/', '2', '/', '2', '0', '2', '0'] =
        ['1', '/', '2', '/', '2', '0', '2', '0'] := by
      simp [pyStripU, List.dropWhile, hnb, hs1, hs0]
    rw [hstrip]
    rw [show splitChars dateSep ['1', '/', '2', '/', '2', '0', '2', '0'] =
        [['1'], ['2'], ['2', '0', '2', '0']] from by decide]
    simp [pyIsDigitU, pyIntU, List.foldl, hd1, hd2, hd0, hv1, hv2, hv0, mkDatetime]
    decide
  · unfold parse_date_checked
    rw [if_neg (by decide : ¬("32/13/2020" = ""))]
    rw [show "32/13/2020".data =
        ['3', '2', '/', '1', '3', '/', '2', '0', '2', '0'] from rfl]
    have hstrip : pyStripU isspace ['3', '2', '/', '1', '3', '/', '2', '0', '2', '0'] =
        ['3', '2', '/', '1', '3', '/', '2', '0', '2', '0'] := by
      simp [pyStripU, List.dropWhile, hs3, hs0]
    rw [hstrip]
    rw [show splitChars dateSep ['3', '2', '/', '1', '3', '/', '2', '0', '2', '0'] =
        [['3', '2'], ['1', '3'], ['2', '0', '2', '0']] from by decide]
    simp [pyIsDigitU, pyIntU, List.foldl, hd0, hd1, hd2, hd3, hv0, hv1, hv2, hv3,
      mkDatetime]
    decide

/-- Witness for C8: the character-table facts instantiated at an explicit
table fragment (ASCII extended with the no-break space and the
superscript two exactly as Unicode classifies them). -/
theorem parse_date_uncaught_valueerror_witness :
    parse_date_checked uniIsspaceSample uniIsdigitSample asciiDecval "²/1/2000" =
        Except.error "ValueError: invalid literal for int() with base 10" ∧
      parse_date_checked uniIsspaceSample uniIsdigitSample asciiDecval
          "\xa01/2/2020" = Except.ok (some ⟨2020, 2, 1⟩) ∧
      parse_date_checked uniIsspaceSample uniIsdigitSample asciiDecval
          "32/13/2020" = Except.ok none := by
  apply parse_date_uncaught_valueerror
  · intro c hc
    have hne : (c == '\xa0') = false := by
      rw [beq_eq_false_iff_ne]
      intro he
      subst he
      exact absurd hc (by decide)
    simp [uniIsspaceSample, hne]
  · intro c hc
    have hne : (c == '²') = false := by
      rw [beq_eq_false_iff_ne]
      intro he
      subst he
      exact absurd hc (by decide)
    simp [uniIsdigitSample, hne]
  · intro c _
    rfl
  · decide
  · decide
  · decide
  · decide

/-- C4 counterexample: on `"05/06/2024"` (first token `a = 5 ≤ 12`, third
token a 4-digit year) the claim predicts the M/D/YYYY reading
`2024-05-06`, but `parse_date` prefers D-M-Y whenever the last token is the
year and returns `2024-06-05` — the repository's own test
(`test_parsing.py`, `parse_date("05/06/2024") == datetime(2024, 6, 5)`)
confirms the day-first behaviour. -/
theorem parse_date_mdy_counterexample :
    parse_date "05/06/2024" = some ⟨2024, 6, 5⟩ ∧
      parse_date "05/06/2024" ≠ some ⟨2024, 5, 6⟩ := by
  exact ⟨by decide, by decide⟩

/-- C4 (amended): for every three-token date string `a/b/c` (or `a-b-c`)
whose third token has more than 3 digits, whose first token is at most 12,
and whose first two tokens have at most 3 digits, `parse_date` interprets
the string as D/M/YYYY — it returns the calendar date with day `a`,
month `b`, year `c` whenever that date is valid. -/
theorem parse_date_dmy_of_year_last (s : String) (pa pb pc : List Char)
    (hsplit : splitChars dateSep (pyStrip s.data) = [pa, pb, pc])
    (hda : pyIsDigit pa = true) (hdb : pyIsDigit pb = true)
    (hdc : pyIsDigit pc = true)
    (_hlc : 3 < pc.length) (hla : pa.length ≤ 3) (_hlb : pb.length ≤ 3)
    (ha12 : strToNat pa ≤ 12)
    (hvalid : validDate (strToNat pc) (strToNat pb) (strToNat pa) = true) :
    parse_date s = some ⟨strToNat pc, strToNat pb, strToNat pa⟩ := by
  have hs : s ≠ "" := by
    intro he
    rw [he] at hsplit
    have h0 : splitChars dateSep (pyStrip "".data) = [[]] := by decide
    rw [h0] at hsplit
    simp at hsplit
  have hb_month : 1 ≤ strToNat pb ∧ strToNat pb ≤ 12 := by
    rcases (validDate_iff _ _ _).1 hvalid with ⟨_, _, h1, h2, _, _⟩
    exact ⟨h1, h2⟩
  have ha_small : strToNat pa ≤ 999 := strToNat_le_of_short pa hda hla
  unfold parse_date
  rw [if_neg hs, hsplit]
  simp only [hda, hdb, hdc, Bool.and_self, if_pos]
  by_cases hc : 999 < strToNat pc
  · simp [hc, mkDatetime, hvalid]
  · have hna : ¬ 999 < strToNat pa := by omega
    simp [hc, hna, hb_month, mkDatetime, hvalid]

/-- Witness for C4 (amended) at `"05/06/2024"`: day 5, month 6, year 2024. -/
theorem parse_date_dmy_of_year_last_witness :
    parse_date "05/06/2024" = some ⟨2024, 6, 5⟩ := by
  have h := parse_date_dmy_of_year_last "05/06/2024"
    "05".data "06".data "2024".data
    (by decide) (by decide) (by decide) (by decide) (by decide)
    (by decide) (by decide) (by decide) (by decide)
  simpa using h

/-! ### Compounding helper lemmas -/

theorem dailyNet_of_zero_rates (p : CompoundParams) (h1 : p.annual_rate = 0)
    (h2 : p.mgmt_fee_annual = 0) : dailyNet p = 0 := by
  simp [dailyNet, dailyGross, dailyMgmt, h1, h2, Real.one_rpow]

theorem dailyInfl_of_zero (p : CompoundParams) (h : p.inflation_rate = 0) :
    dailyInfl p = 0 := by
  simp [dailyInfl, h, Real.one_rpow]

/-- With a zero daily net rate the value series is the contribution series. -/
theorem simValue_eq_simContrib (start : Pydate) (p : CompoundParams)
    (h : dailyNet p = 0) : ∀ i, simValue start p i = simContrib start p i := by
  intro i
  induction i with
  | zero => rfl
  | succ n ih =>
    rw [simValue, simContrib, ih, h]
    ring

/-- With a zero daily inflation rate the inflation-tracked series is the
contribution series. -/
theorem simInfl_eq_simContrib (start : Pydate) (p : CompoundParams)
    (h : dailyInfl p = 0) : ∀ i, simInfl start p i = simContrib start p i := by
  intro i
  induction i with
  | zero => rfl
  | succ n ih =>
    rw [simInfl, simContrib, ih, h]
    ring

/-- Among the first 32 days from 2024-01-01, the day-of-month is 1 exactly
on day 0 (January 1st) and day 31 (February 1st). -/
theorem c6_day_one_iff :
    ∀ i < 32, ((dateAt ⟨2024, 1, 1⟩ i).day = 1 ↔ (i = 0 ∨ i = 31)) := by
  decide

/-- The cumulative-contribution series of the C6 scenario: 1300 from day 0
through day 30, then 1600 on day 31. -/
theorem c6_contrib (infl : ℝ) : ∀ i, i ≤ 31 →
    simContrib ⟨2024, 1, 1⟩ ⟨1000, 300, 0, 0, infl, 1⟩ i =
      if i = 31 then 1600 else 1300 := by
  intro i
  induction i with
  | zero =>
    intro _
    have hd : (dateAt ⟨2024, 1, 1⟩ 0).day = 1 := by decide
    norm_num [simContrib, contribIncrement, hd]
  | succ n ih =>
    intro hle
    have hn31 : n ≠ 31 := by omega
    have hprev := ih (by omega)
    rw [if_neg hn31] at hprev
    by_cases h31 : n + 1 = 31
    · have hd : (dateAt ⟨2024, 1, 1⟩ (n + 1)).day = 1 := by
        rw [h31]; decide
      rw [simContrib, hprev, if_pos h31]
      norm_num [contribIncrement, hd]
    · have hd : (dateAt ⟨2024, 1, 1⟩ (n + 1)).day ≠ 1 := by
        intro hcontra
        rcases (c6_day_one_iff (n + 1) (by omega)).1 hcontra with h | h <;> omega
      rw [simContrib, hprev]
      norm_num [contribIncrement, hd, h31]

/-- C6: with initial 1000, monthly 300, zero gross rate, zero fee, one-year
horizon from 2024-01-01, the simulated value is 1300 on day 0 and on every
day through 2024-01-31 (indices 0–30), and 1600 on 2024-02-01 (index 31,
which lies inside the 367-day series); the inflation assumption is
irrelevant to the nominal value column and is left universal. -/
theorem simulate_compound_monthly_schedule (infl : ℝ) :
    simulate_compound ⟨2024, 1, 1⟩ ⟨1000, 300, 0, 0, infl, 1⟩ =
        Except.ok (simulate_core ⟨2024, 1, 1⟩ ⟨1000, 300, 0, 0, infl, 1⟩) ∧
      (∀ i, i ≤ 30 →
        (simulate_core ⟨2024, 1, 1⟩ ⟨1000, 300, 0, 0, infl, 1⟩).value i = 1300) ∧
      (simulate_core ⟨2024, 1, 1⟩ ⟨1000, 300, 0, 0, infl, 1⟩).value 31 = 1600 ∧
      31 < (simulate_core ⟨2024, 1, 1⟩ ⟨1000, 300, 0, 0, infl, 1⟩).nDays := by
  have hnet : dailyNet (⟨1000, 300, 0, 0, infl, 1⟩ : CompoundParams) = 0 :=
    dailyNet_of_zero_rates _ rfl rfl
  refine ⟨?_, ?_, ?_, ?_⟩
  · norm_num [simulate_compound]
  · intro i hi
    show simValue ⟨2024, 1, 1⟩ ⟨1000, 300, 0, 0, infl, 1⟩ i = 1300
    rw [simValue_eq_simContrib _ _ hnet]
    have := c6_contrib infl i (by omega)
    rwa [if_neg (by omega : i ≠ 31)] at this
  · show simValue ⟨2024, 1, 1⟩ ⟨1000, 300, 0, 0, infl, 1⟩ 31 = 1600
    rw [simValue_eq_simContrib _ _ hnet]
    simpa using c6_contrib infl 31 le_rfl
  · show 31 < Timeline.nDays ⟨2024, 1, 1⟩ (1 : ℤ).toNat
    decide

/-- Witness for C6 at day 15 (inflation instantiated to 0). -/
theorem simulate_compound_monthly_schedule_witness :
    (simulate_core ⟨2024, 1, 1⟩ ⟨1000, 300, 0, 0, 0, 1⟩).value 15 = 1300 :=
  (simulate_compound_monthly_schedule 0).2.1 15 (by norm_num)

/-- C3 counterexample: with inflation 0 but a positive monthly contribution
(initial 1000, monthly 300, zero rates, one year from 2024-01-01) the
inflation-tracked series grows by the contributions, so on 2024-02-01
(index 31) the deflation factor is 1600/1300 and `real_value` is 1300
while `value` is 1600 — the round-trip identity fails. -/
theorem real_value_roundtrip_counterexample :
    simulate_compound ⟨2024, 1, 1⟩ ⟨1000, 300, 0, 0, 0, 1⟩ =
        Except.ok (simulate_core ⟨2024, 1, 1⟩ ⟨1000, 300, 0, 0, 0, 1⟩) ∧
      (simulate_core ⟨2024, 1, 1⟩ ⟨1000, 300, 0, 0, 0, 1⟩).value 31 = 1600 ∧
      (simulate_core ⟨2024, 1, 1⟩ ⟨1000, 300, 0, 0, 0, 1⟩).real_value 31 = 1300 ∧
      (simulate_core ⟨2024, 1, 1⟩ ⟨1000, 300, 0, 0, 0, 1⟩).real_value 31 ≠
        (simulate_core ⟨2024, 1, 1⟩ ⟨1000, 300, 0, 0, 0, 1⟩).value 31 ∧
      31 < (simulate_core ⟨2024, 1, 1⟩ ⟨1000, 300, 0, 0, 0, 1⟩).nDays := by
  have hnet : dailyNet (⟨1000, 300, 0, 0, 0, 1⟩ : CompoundParams) = 0 :=
    dailyNet_of_zero_rates _ rfl rfl
  have hinfl : dailyInfl (⟨1000, 300, 0, 0, 0, 1⟩ : CompoundParams) = 0 :=
    dailyInfl_of_zero _ rfl
  have hv31 : simValue ⟨2024, 1, 1⟩ ⟨1000, 300, 0, 0, 0, 1⟩ 31 = 1600 := by
    rw [simValue_eq_simContrib _ _ hnet]
    simpa using c6_contrib 0 31 le_rfl
  have hi31 : simInfl ⟨2024, 1, 1⟩ ⟨1000, 300, 0, 0, 0, 1⟩ 31 = 1600 := by
    rw [simInfl_eq_simContrib _ _ hinfl]
    simpa using c6_contrib 0 31 le_rfl
  have hi0 : simInfl ⟨2024, 1, 1⟩ ⟨1000, 300, 0, 0, 0, 1⟩ 0 = 1300 := by
    rw [simInfl_eq_simContrib _ _ hinfl]
    simpa using c6_contrib 0 0 (by norm_num)
  have hreal : simRealValue ⟨2024, 1, 1⟩ ⟨1000, 300, 0, 0, 0, 1⟩ 31 = 1300 := by
    rw [simRealValue, inflFactorGuard, inflFactor, hi31, hi0, hv31]
    norm_num
  refine ⟨by norm_num [simulate_compound], hv31, hreal, ?_, ?_⟩
  · show simRealValue ⟨2024, 1, 1⟩ ⟨1000, 300, 0, 0, 0, 1⟩ 31 ≠
      simValue ⟨2024, 1, 1⟩ ⟨1000, 300, 0, 0, 0, 1⟩ 31
    rw [hreal, hv31]
    norm_num
  · show 31 < Timeline.nDays ⟨2024, 1, 1⟩ (1 : ℤ).toNat
    decide

/-- C3 (amended): with zero inflation, zero monthly contribution and
non-zero initial capital, the inflation-tracked series is constant, the
deflation factor is 1, and `real_value` equals `value` on every day. -/
theorem real_value_eq_value_of_zero_inflation (start : Pydate)
    (p : CompoundParams) (hinfl : p.inflation_rate = 0) (hmon : p.monthly = 0)
    (hinit : p.initial ≠ 0) (hy : 0 < p.years) :
    simulate_compound start p = Except.ok (simulate_core start p) ∧
      ∀ i, (simulate_core start p).real_value i =
        (simulate_core start p).value i := by
  constructor
  · simp [simulate_compound, not_le.mpr hy]
  · intro i
    have hc : ∀ j, contribIncrement start p j = 0 := by
      intro j
      simp [contribIncrement, hmon]
    have hdi : dailyInfl p = 0 := dailyInfl_of_zero p hinfl
    have hconst : ∀ j, simInfl start p j = p.initial := by
      intro j
      induction j with
      | zero => simp [simInfl, hc]
      | succ n ih => simp [simInfl, hc, hdi, ih]
    show simRealValue start p i = simValue start p i
    rw [simRealValue, inflFactorGuard, inflFactor, hconst, hconst, div_self hinit]
    norm_num

/-- Witness for C3 (amended) at day 7 of a 20-year zero-inflation,
no-contribution simulation. -/
theorem real_value_eq_value_of_zero_inflation_witness :
    (simulate_core ⟨2024, 1, 1⟩ ⟨1000, 0, 0.05, 0.005, 0, 20⟩).real_value 7 =
      (simulate_core ⟨2024, 1, 1⟩ ⟨1000, 0, 0.05, 0.005, 0, 20⟩).value 7 :=
  (real_value_eq_value_of_zero_inflation ⟨2024, 1, 1⟩ _ rfl rfl
    (by norm_num) (by norm_num)).2 7

/-- C7: `simulate_compound` signals `ValueError("years must be > 0")` —
producing no series — whenever the horizon is non-positive, for every
start date and all other parameter values. -/
theorem simulate_compound_rejects_nonpositive_years (start : Pydate)
    (p : CompoundParams) (h : p.years ≤ 0) :
    simulate_compound start p = Except.error "years must be > 0" := by
  simp [simulate_compound, h]

/-- Witness for C7 with the default parameters and a zero horizon. -/
theorem simulate_compound_rejects_nonpositive_years_witness :
    simulate_compound ⟨2024, 1, 1⟩ ⟨10000, 300, 0.05, 0.005, 0.02, 0⟩ =
      Except.error "years must be > 0" :=
  simulate_compound_rejects_nonpositive_years ⟨2024, 1, 1⟩ _ (by norm_num)

/-! ### Event-field parser theorems -/

/-- C1 (the code at the failing input): `parse_eventi_field` in
`src/core/parsing.py` accepts only the text argument — the keyword call
`parse_eventi_field(text, default_is_dependent=True)` made by
`io_csv.load_events_csv` and by `tests/test_parsing.py` raises
`TypeError` — and on the v2/v1-schema line of that very test, which has no
explicit dependent marker, it returns `is_dependent = false` with an empty
dependent name: no parameter exists that could force `true`. -/
theorem parse_eventi_field_no_default_dependent_flag :
    parse_eventi_field
        "Titolo Evento: Viaggio, Categoria: sogni, Data Evento: 01-01-2020" =
      [⟨"Viaggio".data, "desiderio".data, "01-01-2020".data, [], false⟩] := by
  decide

/-- C9 (the code at the failing input): on a v3-schema line carrying a
`Costo` field, the event dict produced by `parse_eventi_field` contains
exactly title, category, date, dependent name and flag — the cost text is
dropped (the v3 regex has no `Costo` group) — and the `Event` assembled by
`load_events_csv` from such a line carries `costo = None`, although
`tests/test_parsing.py` asserts the cost is preserved verbatim. -/
theorem v3_costo_not_retained :
    parse_eventi_field
        "Titolo Evento: Operazione, Categoria: salute, Data Evento: 01-04-2010, A Carico?: Si, Nome del Familiare A Carico: Anna, Costo: 2000" =
      [⟨"Operazione".data, "bisogno".data, "01-04-2010".data, "Anna".data, true⟩] ∧
    (load_events_csv sampleToDT [sampleCostoRow]).1.map (fun e => e.costo) =
      [none] := by
  exact ⟨by decide, by decide⟩

/-! ### Forecast theorems -/

/-- C5: whatever the macro z-scores and the baseline CAGR, with
non-negative clamp widths the combined CAGR-X macro adjustment lies within
`[-max_downshift, max_upshift]`, and the final adjusted annual rate lies
within the absolute guard band `[-0.05, 0.15]`. -/
theorem cagrx_adjustment_and_rate_bounded
    (z_tnx z_vix z_dxy max_upshift max_downshift base_cagr : ℝ)
    (hup : 0 ≤ max_upshift) (hdown : 0 ≤ max_downshift) :
    -max_downshift ≤ cagrx_adjustment z_tnx z_vix z_dxy max_upshift max_downshift ∧
      cagrx_adjustment z_tnx z_vix z_dxy max_upshift max_downshift ≤ max_upshift ∧
      -0.05 ≤ cagrx_rate base_cagr
        (cagrx_adjustment z_tnx z_vix z_dxy max_upshift max_downshift) ∧
      cagrx_rate base_cagr
        (cagrx_adjustment z_tnx z_vix z_dxy max_upshift max_downshift) ≤ 0.15 := by
  have hdu : -max_downshift ≤ max_upshift := le_trans (by linarith) hup
  unfold cagrx_adjustment cagrx_rate npClip
  refine ⟨le_min (le_max_right _ _) hdu, min_le_right _ _,
    le_min (le_max_right _ _) (by norm_num), min_le_right _ _⟩

/-- Witness for C5 at extreme z-scores and the default ±300 bp clamps. -/
theorem cagrx_adjustment_and_rate_bounded_witness :
    -0.03 ≤ cagrx_adjustment 1000 (-2000) 3000 0.03 0.03 ∧
      cagrx_adjustment 1000 (-2000) 3000 0.03 0.03 ≤ 0.03 ∧
      -0.05 ≤ cagrx_rate 0.5 (cagrx_adjustment 1000 (-2000) 3000 0.03 0.03) ∧
      cagrx_rate 0.5 (cagrx_adjustment 1000 (-2000) 3000 0.03 0.03) ≤ 0.15 :=
  cagrx_adjustment_and_rate_bounded 1000 (-2000) 3000 0.03 0.03 0.5
    (by norm_num) (by norm_num)

/-- C10: for a non-empty history, every requested future date lying on or
before the last date of the (sorted) history is projected to exactly the
last historical price, by both the baseline forecast and the CAGR-X
variant, because the elapsed-day exponent is clamped below at zero. -/
theorem forecast_pins_past_dates (hist : List (Pydate × ℝ))
    (future : List Pydate) (lookback_years macro_years : ℕ)
    (tnx vix dxy : List ℝ) (max_upshift max_downshift : ℝ)
    (dl : Pydate) (pl : ℝ)
    (hlast : (sortIndex hist).getLast? = some (dl, pl))
    (i : ℕ) (hi : i < future.length)
    (hpast : rataDie future[i] ≤ rataDie dl) :
    (forecast_from_history hist future lookback_years)[i]? =
        some (future[i], pl) ∧
      (forecast_cagrx_from_yfinance hist future lookback_years macro_years
          tnx vix dxy max_upshift max_downshift)[i]? =
        some (future[i], pl) := by
  have hhist : ¬ hist.isEmpty = true := by
    intro h
    rw [List.isEmpty_iff] at h
    rw [h] at hlast
    simp [sortIndex] at hlast
  have hfut : ¬ future.isEmpty = true := by
    intro h
    rw [List.isEmpty_iff] at h
    rw [h] at hi
    simp at hi
  have hexp : (max 0 ((rataDie future[i] : ℤ) - (rataDie dl : ℤ))).toNat = 0 := by
    have : (rataDie future[i] : ℤ) - (rataDie dl : ℤ) ≤ 0 := by
      have := hpast
      omega
    omega
  constructor
  · unfold forecast_from_history
    rw [if_neg (by simp [hhist, hfut])]
    rcases hs : sortIndex hist with _ | ⟨h₀, hrest⟩
    · rw [hs] at hlast
      simp at hlast
    · rw [hs] at hlast
      have hld : (h₀ :: hrest).getLastD h₀ = (dl, pl) := by
        rw [List.getLastD_eq_getLast?, hlast]
        rfl
      simp only [hld, List.getElem?_map, List.getElem?_eq_getElem hi]
      simp [hexp]
  · unfold forecast_cagrx_from_yfinance
    rw [if_neg (by simp [hhist, hfut])]
    rcases hs : sortIndex hist with _ | ⟨h₀, hrest⟩
    · rw [hs] at hlast
      simp at hlast
    · rw [hs] at hlast
      have hld : (h₀ :: hrest).getLastD h₀ = (dl, pl) := by
        rw [List.getLastD_eq_getLast?, hlast]
        rfl
      simp only [hld, List.getElem?_map, List.getElem?_eq_getElem hi]
      simp [hexp]

/-- Witness for C10: a two-point history and one past future date. -/
theorem forecast_pins_past_dates_witness :
    (forecast_from_history [(⟨2024, 1, 1⟩, 100), (⟨2024, 6, 1⟩, 120)]
        [⟨2024, 3, 1⟩] 5)[0]? = some (⟨2024, 3, 1⟩, 120) ∧
      (forecast_cagrx_from_yfinance [(⟨2024, 1, 1⟩, 100), (⟨2024, 6, 1⟩, 120)]
          [⟨2024, 3, 1⟩] 5 5 [] [] [] 0.03 0.03)[0]? =
        some (⟨2024, 3, 1⟩, 120) := by
  have hle : dateLeB ⟨2024, 1, 1⟩ ⟨2024, 6, 1⟩ = true := by decide
  have hlast : (sortIndex [((⟨2024, 1, 1⟩ : Pydate), (100 : ℝ)), (⟨2024, 6, 1⟩, 120)]).getLast? =
      some (⟨2024, 6, 1⟩, 120) := by
    simp [sortIndex, insertByDate, hle]
  exact forecast_pins_past_dates _ _ 5 5 [] [] [] 0.03 0.03 ⟨2024, 6, 1⟩ 120
    hlast 0 (by norm_num) (by decide)

/-! ### Selected-forms dict lemmas -/

theorem selLookup_selInsert (sel : List (List Char × SelEntry))
    (n : List Char) (e : SelEntry) (m : List Char) :
    selLookup (selInsert sel n e) m =
      if m = n then some e else selLookup sel m := by
  induction sel with
  | nil =>
    by_cases h : m = n
    · simp only [selInsert, selLookup, if_pos h, if_pos (h.symm : n = m)]
    · simp only [selInsert, selLookup, if_neg h, if_neg (Ne.symm h : ¬ n = m)]
  | cons kv rest ih =>
    obtain ⟨k, v⟩ := kv
    by_cases hk : k = n
    · subst hk
      by_cases hm : m = k
      · simp only [selInsert, selLookup, if_pos rfl, if_pos (hm.symm : k = m),
          if_pos hm]
      · simp only [selInsert, selLookup, if_pos rfl,
          if_neg (Ne.symm hm : ¬ k = m), if_neg hm]
    · by_cases hm : k = m
      · have hmn : ¬ m = n := by
          intro h
          exact hk (hm.trans h)
        simp only [selInsert, selLookup, if_neg hk, if_pos hm, if_neg hmn]
      · simp only [selInsert, selLookup, if_neg hk, if_neg hm, ih]

theorem selKeys_selInsert_mem (sel : List (List Char × SelEntry))
    (n : List Char) (e : SelEntry) (hmem : n ∈ selKeys sel) :
    selKeys (selInsert sel n e) = selKeys sel := by
  induction sel with
  | nil => exact absurd hmem (by simp [selKeys])
  | cons kv rest ih =>
    obtain ⟨k, v⟩ := kv
    by_cases hk : k = n
    · simp only [selInsert, if_pos hk, selKeys, List.map_cons]
    · have hrest : n ∈ selKeys rest := by
        have hck : selKeys ((k, v) :: rest) = k :: selKeys rest := rfl
        rw [hck, List.mem_cons] at hmem
        rcases hmem with h | h
        · exact absurd h.symm hk
        · exact h
      simp only [selInsert, if_neg hk, selKeys, List.map_cons]
      have := ih hrest
      simp only [selKeys] at this
      rw [this]

theorem selKeys_selInsert_not_mem (sel : List (List Char × SelEntry))
    (n : List Char) (e : SelEntry) (hmem : n ∉ selKeys sel) :
    selKeys (selInsert sel n e) = selKeys sel ++ [n] := by
  induction sel with
  | nil => simp [selInsert, selKeys]
  | cons kv rest ih =>
    obtain ⟨k, v⟩ := kv
    have hk : ¬ k = n := by
      intro h
      exact hmem (by simp [selKeys, h])
    have hrest : n ∉ selKeys rest := by
      intro h
      exact hmem (by simp only [selKeys, List.map_cons]; exact List.mem_cons_of_mem _ h)
    simp only [selInsert, if_neg hk, selKeys, List.map_cons, List.cons_append,
      List.cons.injEq, true_and]
    have := ih hrest
    simpa [selKeys] using this

theorem selLookup_isSome_iff (sel : List (List Char × SelEntry)) (n : List Char) :
    (selLookup sel n).isSome = true ↔ n ∈ selKeys sel := by
  induction sel with
  | nil => simp [selLookup, selKeys]
  | cons kv rest ih =>
    obtain ⟨k, v⟩ := kv
    by_cases hk : k = n
    · subst hk
      simp [selLookup, selKeys]
    · rw [selLookup, if_neg hk, ih]
      have hck : selKeys ((k, v) :: rest) = k :: selKeys rest := rfl
      rw [hck, List.mem_cons]
      constructor
      · exact Or.inr
      · rintro (h | h)
        · exact absurd h.symm hk
        · exact h

theorem selKeys_nodup_selInsert (sel : List (List Char × SelEntry))
    (n : List Char) (e : SelEntry) (hnd : (selKeys sel).Nodup) :
    (selKeys (selInsert sel n e)).Nodup := by
  by_cases hmem : n ∈ selKeys sel
  · rwa [selKeys_selInsert_mem sel n e hmem]
  · rw [selKeys_selInsert_not_mem sel n e hmem]
    simp [List.nodup_append, hnd, hmem]

theorem selLookup_of_mem (sel : List (List Char × SelEntry))
    (hnd : (selKeys sel).Nodup) (p : List Char × SelEntry) (hp : p ∈ sel) :
    selLookup sel p.1 = some p.2 := by
  induction sel with
  | nil => exact absurd hp (List.not_mem_nil p)
  | cons kv rest ih =>
    obtain ⟨k, v⟩ := kv
    have hnd' : k ∉ selKeys rest ∧ (selKeys rest).Nodup := by
      have := hnd
      simp only [selKeys, List.map_cons, List.nodup_cons] at this
      exact this
    rcases List.mem_cons.1 hp with hp | hp
    · subst hp
      simp [selLookup]
    · have hk : ¬ k = p.1 := by
        intro h
        apply hnd'.1
        rw [h]
        simp only [selKeys]
        exact List.mem_map_of_mem Prod.fst hp
      simp only [selLookup, if_neg hk]
      exact ih hnd'.2 hp

theorem mem_of_selLookup (sel : List (List Char × SelEntry))
    (n : List Char) (e : SelEntry) (h : selLookup sel n = some e) :
    (n, e) ∈ sel := by
  induction sel with
  | nil => exact absurd h (by simp [selLookup])
  | cons kv rest ih =>
    obtain ⟨k, v⟩ := kv
    by_cases hk : k = n
    · rw [selLookup, if_pos hk] at h
      subst hk
      rw [Option.some.injEq] at h
      subst h
      exact List.mem_cons_self _ _
    · rw [selLookup, if_neg hk] at h
      exact List.mem_cons_of_mem _ (ih h)

/-! ### Event-sort membership lemmas -/

theorem mem_insertEvent (x e : Event) (l : List Event) :
    x ∈ insertEvent e l ↔ x = e ∨ x ∈ l := by
  induction l with
  | nil => simp [insertEvent]
  | cons y ys ih =>
    by_cases h : dateLeB y.dt e.dt
    · simp only [insertEvent, if_pos h, List.mem_cons, ih]
      tauto
    · simp only [insertEvent, if_neg h, List.mem_cons]

theorem mem_foldl_insertEvent (l : List Event) :
    ∀ (acc : List Event) (x : Event),
      x ∈ l.foldl (fun acc e => insertEvent e acc) acc ↔ x ∈ l ∨ x ∈ acc := by
  induction l with
  | nil => simp
  | cons y ys ih =>
    intro acc x
    rw [List.foldl_cons, ih, mem_insertEvent]
    simp only [List.mem_cons]
    tauto

theorem mem_sortByDt (x : Event) (l : List Event) :
    x ∈ sortByDt l ↔ x ∈ l := by
  rw [sortByDt, mem_foldl_insertEvent]
  simp


/-! ### The selected-forms loop invariant -/

theorem selStep_spec (toDT : Bool → String → Option ℕ)
    (processed : List Row) (sel : List (List Char × SelEntry)) (row : Row)
    (h : selSpec toDT processed sel) :
    selSpec toDT (processed ++ [row]) (selStep toDT sel row) := by
  obtain ⟨hnd, hlook, hcompl⟩ := h
  unfold selStep
  by_cases hempty : (_extract_person row).1.isEmpty = true
  · rw [if_pos hempty]
    have hrowname : (_extract_person row).1 = [] := List.isEmpty_iff.1 hempty
    refine ⟨hnd, ?_, ?_⟩
    · intro n e he
      obtain ⟨hn, hrow, hname, hsub, hinfo, hmax⟩ := hlook n e he
      refine ⟨hn, List.mem_append_left _ hrow, hname, hsub, hinfo, ?_⟩
      intro r hr hrname
      rcases List.mem_append.1 hr with hr | hr
      · exact hmax r hr hrname
      · rw [List.mem_singleton.1 hr, hrowname] at hrname
        exact absurd hrname.symm hn
    · intro r hr hrname
      rcases List.mem_append.1 hr with hr | hr
      · exact hcompl r hr hrname
      · rw [List.mem_singleton.1 hr] at hrname
        exact absurd hrowname hrname
  · rw [if_neg hempty]
    have hrowname : (_extract_person row).1 ≠ [] := by
      intro hcontra
      exact hempty (List.isEmpty_iff.2 hcontra)
    rcases hex : selLookup sel (_extract_person row).1 with _ | ex
    · -- first occurrence of this name: insert a fresh entry
      simp only [hex]
      refine ⟨selKeys_nodup_selInsert _ _ _ hnd, ?_, ?_⟩
      · intro n e he
        rw [selLookup_selInsert] at he
        by_cases hn : n = (_extract_person row).1
        · rw [if_pos hn] at he
          obtain rfl := Option.some.inj he
          subst hn
          refine ⟨hrowname, List.mem_append_right _ (by simp), rfl, rfl, rfl, ?_⟩
          intro r hr hrname
          rcases List.mem_append.1 hr with hr | hr
          · have hsome := hcompl r hr (by rw [hrname]; exact hrowname)
            rw [hrname, hex] at hsome
            simp at hsome
          · rw [List.mem_singleton.1 hr]
        · rw [if_neg hn] at he
          obtain ⟨hn2, hrow, hname, hsub, hinfo, hmax⟩ := hlook n e he
          refine ⟨hn2, List.mem_append_left _ hrow, hname, hsub, hinfo, ?_⟩
          intro r hr hrname
          rcases List.mem_append.1 hr with hr | hr
          · exact hmax r hr hrname
          · rw [List.mem_singleton.1 hr] at hrname
            exact absurd hrname.symm hn
      · intro r hr hrname
        rw [selLookup_isSome_iff]
        have hnew : (_extract_person row).1 ∉ selKeys sel := by
          rw [← selLookup_isSome_iff, hex]
          simp
        rw [selKeys_selInsert_not_mem _ _ _ hnew]
        rcases List.mem_append.1 hr with hr | hr
        · have hsome := hcompl r hr hrname
          rw [selLookup_isSome_iff] at hsome
          exact List.mem_append_left _ hsome
        · rw [List.mem_singleton.1 hr]
          simp
    · -- an entry exists: replace it iff its stamp is not later
      by_cases hle : ex.submission ≤ _parse_submission toDT row.submission
      · simp only [hex, if_pos hle]
        have hmemk : (_extract_person row).1 ∈ selKeys sel := by
          rw [← selLookup_isSome_iff, hex]
          rfl
        refine ⟨selKeys_nodup_selInsert _ _ _ hnd, ?_, ?_⟩
        · intro n e he
          rw [selLookup_selInsert] at he
          by_cases hn : n = (_extract_person row).1
          · rw [if_pos hn] at he
            obtain rfl := Option.some.inj he
            subst hn
            refine ⟨hrowname, List.mem_append_right _ (by simp), rfl, rfl, rfl, ?_⟩
            intro r hr hrname
            rcases List.mem_append.1 hr with hr | hr
            · obtain ⟨_, _, _, _, _, hmax⟩ := hlook _ ex hex
              exact le_trans (hmax r hr hrname) hle
            · rw [List.mem_singleton.1 hr]
          · rw [if_neg hn] at he
            obtain ⟨hn2, hrow, hname, hsub, hinfo, hmax⟩ := hlook n e he
            refine ⟨hn2, List.mem_append_left _ hrow, hname, hsub, hinfo, ?_⟩
            intro r hr hrname
            rcases List.mem_append.1 hr with hr | hr
            · exact hmax r hr hrname
            · rw [List.mem_singleton.1 hr] at hrname
              exact absurd hrname.symm hn
        · intro r hr hrname
          rw [selLookup_isSome_iff, selKeys_selInsert_mem _ _ _ hmemk]
          rcases List.mem_append.1 hr with hr | hr
          · have hsome := hcompl r hr hrname
            rwa [selLookup_isSome_iff] at hsome
          · rw [List.mem_singleton.1 hr]
            exact hmemk
      · simp only [hex, if_neg hle]
        refine ⟨hnd, ?_, ?_⟩
        · intro n e he
          obtain ⟨hn2, hrow, hname, hsub, hinfo, hmax⟩ := hlook n e he
          refine ⟨hn2, List.mem_append_left _ hrow, hname, hsub, hinfo, ?_⟩
          intro r hr hrname
          rcases List.mem_append.1 hr with hr | hr
          · exact hmax r hr hrname
          · rw [List.mem_singleton.1 hr] at hrname
            rw [List.mem_singleton.1 hr]
            have hee : e = ex := by
              rw [← hrname] at he
              rw [hex] at he
              exact (Option.some.inj he).symm
            rw [hee]
            exact le_of_not_le hle
        · intro r hr hrname
          rcases List.mem_append.1 hr with hr | hr
          · exact hcompl r hr hrname
          · rw [List.mem_singleton.1 hr] at hrname ⊢
            rw [hex]
            rfl

theorem foldl_selStep_spec (toDT : Bool → String → Option ℕ)
    (rows : List Row) :
    ∀ (processed : List Row) (sel : List (List Char × SelEntry)),
      selSpec toDT processed sel →
      selSpec toDT (processed ++ rows) (rows.foldl (selStep toDT) sel) := by
  induction rows with
  | nil => intro processed sel h; simpa using h
  | cons r rs ih =>
    intro processed sel h
    have h1 := selStep_spec toDT processed sel r h
    have h2 := ih (processed ++ [r]) (selStep toDT sel r) h1
    simpa [List.append_assoc] using h2

theorem selectForms_spec (toDT : Bool → String → Option ℕ) (rows : List Row) :
    selSpec toDT rows (selectForms toDT rows) := by
  have h0 : selSpec toDT [] [] := by
    refine ⟨by simp [selKeys], ?_, ?_⟩
    · intro n e he
      simp [selLookup] at he
    · intro r hr
      simp at hr
  simpa using foldl_selStep_spec toDT rows [] [] h0

/-! ### C2 -/

/-- C2: in `load_events_csv`, every selected entry is a row of the table
whose derived full name is the entry's key and whose parsed submission
timestamp is maximal among all rows with that name (later rows win ties);
every event of the output comes from such a winning row and every person
record is the winning row's info; and a submission string that parses
neither day-first nor month-first is assigned `datetime.min`, so any
parseable timestamp beats it. -/
theorem load_events_keeps_latest (toDT : Bool → String → Option ℕ)
    (rows : List Row) :
    (∀ name e, selLookup (selectForms toDT rows) name = some e →
      e.row ∈ rows ∧ (_extract_person e.row).1 = name ∧
      e.submission = _parse_submission toDT e.row.submission ∧
      ∀ r ∈ rows, (_extract_person r).1 = name →
        _parse_submission toDT r.submission ≤ e.submission) ∧
    (∀ ev ∈ (load_events_csv toDT rows).1, ∃ name e,
      selLookup (selectForms toDT rows) name = some e ∧
      ev ∈ eventsFromRow name e.row) ∧
    (∀ np ∈ (load_events_csv toDT rows).2, ∃ e,
      selLookup (selectForms toDT rows) np.1 = some e ∧
      np.2 = e.info.getD ⟨np.1, [], [], none⟩) ∧
    (∀ s : String, toDT true (String.mk (pyStrip s.data)) = none →
      toDT false (String.mk (pyStrip s.data)) = none →
      _parse_submission toDT s = datetimeMin) := by
  obtain ⟨hnd, hlook, _⟩ := selectForms_spec toDT rows
  refine ⟨?_, ?_, ?_, ?_⟩
  · intro name e he
    obtain ⟨_, hrow, hname, hsub, _, hmax⟩ := hlook name e he
    exact ⟨hrow, hname, hsub, hmax⟩
  · intro ev hev
    have : ev ∈ (selectForms toDT rows).flatMap
        (fun ne => eventsFromRow ne.1 ne.2.row) := by
      have := hev
      unfold load_events_csv at this
      simp only at this
      rwa [mem_sortByDt] at this
    obtain ⟨ne, hne, hmem⟩ := List.mem_flatMap.1 this
    exact ⟨ne.1, ne.2, selLookup_of_mem _ hnd ne hne, hmem⟩
  · intro np hnp
    unfold load_events_csv at hnp
    simp only [List.mem_map] at hnp
    obtain ⟨ne, hne, rfl⟩ := hnp
    exact ⟨ne.2, selLookup_of_mem _ hnd ne hne, rfl⟩
  · intro s h1 h2
    unfold _parse_submission
    by_cases hraw : String.mk (pyStrip s.data) = ""
    · rw [if_pos hraw]
    · rw [if_neg hraw, h1, h2]

/-- Witness for C2 on a two-row table for the same person: the stored
entry is the fresher second row, and the stale first row's timestamp does
not exceed the stored one. -/
theorem load_events_keeps_latest_witness :
    sampleEntry.row ∈ [sampleRow1, sampleRow2] ∧
      (_extract_person sampleEntry.row).1 = "Mario Rossi".data ∧
      _parse_submission sampleToDT sampleRow1.submission ≤
        sampleEntry.submission := by
  have h := (load_events_keeps_latest sampleToDT [sampleRow1, sampleRow2]).1
    "Mario Rossi".data sampleEntry (by decide)
  exact ⟨h.1, h.2.1, h.2.2.2 sampleRow1 (by simp) (by decide)⟩

end Timeline
